import Mathlib

/-!
Shallow embedding of the Document Command & History Engine of the
rich-text-editor repository, together with theorems settling the spec's
claims about it.

The embedding mirrors:
  * `HistoryManager` (src/unnamed/part_004): bounded undo/redo stacks with
    debounced snapshotting;
  * `SelectionManager` (src/src/modules/SelectionManager.ts): the
    offset-based cursor placement walk over the document's text nodes;
  * `Editor` (src/src/core/Editor.ts): the `input` event handler ordering
    and `destroy()`.

The editor element's `innerHTML` read by `getContent()` / written by
`setContent()` is modelled as the `content` field of the state; `Date.now()`
is an explicit `now : Nat` argument; the JS stacks push at the list's end
(`push` = append, `pop` = drop last, `shift` = drop head), exactly as the
source arrays do.
-/

/-- `HistorySnapshot` of src/unnamed/part_004: full content plus capture time. -/
structure HistorySnapshot where
  content : String
  timestamp : Nat
deriving Repr, DecidableEq

/-- The mutable state of one `HistoryManager` together with the editor
element it reads and writes (`content` models `editorElement.innerHTML`). -/
structure HistoryState where
  content : String
  undoStack : List HistorySnapshot
  redoStack : List HistorySnapshot
  maxStackSize : Nat
  isRecording : Bool
  lastSnapshot : String
  /-- The pending debounce timer, as the absolute time it is due to fire;
  `none` when no timer has been scheduled. -/
  snapshotTimer : Option Nat
  snapshotDelay : Nat
deriving Repr, DecidableEq

/-- The `HistoryManager` constructor: empty stacks, recording on, and
`lastSnapshot = this.getContent()` captured from the element. -/
def HistoryState.init (initialContent : String) (maxStackSize : Nat) : HistoryState :=
  { content := initialContent
    undoStack := []
    redoStack := []
    maxStackSize := maxStackSize
    isRecording := true
    lastSnapshot := initialContent
    snapshotTimer := none
    snapshotDelay := 500 }

/-- A raw user mutation of the editable element (`innerHTML` changes under
the manager); touches nothing but the document content. -/
def HistoryState.setDocContent (c : String) (s : HistoryState) : HistoryState :=
  { s with content := c }

/-- `recordSnapshot()`: early-returns when not recording or when the content
equals `lastSnapshot`; otherwise pushes `{content, timestamp}`, updates
`lastSnapshot`, clears `redoStack`, and shifts off the oldest entry when the
push exceeded `maxStackSize`. -/
def HistoryState.recordSnapshot (now : Nat) (s : HistoryState) : HistoryState :=
  if s.isRecording = false then s
  else if s.content = s.lastSnapshot then s
  else
    let snapshot : HistorySnapshot := { content := s.content, timestamp := now }
    let pushed := s.undoStack ++ [snapshot]
    let s1 : HistoryState := { s with undoStack := pushed, lastSnapshot := s.content, redoStack := [] }
    if s.maxStackSize < pushed.length then { s1 with undoStack := pushed.drop 1 } else s1

/-- `recordSnapshotDebounced()`: cancels any pending timer and schedules
`recordSnapshot` to run `snapshotDelay` time-units from `now`. -/
def HistoryState.recordSnapshotDebounced (now : Nat) (s : HistoryState) : HistoryState :=
  { s with snapshotTimer := some (now + s.snapshotDelay) }

/-- `undo()`: the `getLast?` match is the source's `length === 0` early
return (`pop()` is `getLast` plus `dropLast`).  On success the source sets
`isRecording = false`, applies the popped content, updates `lastSnapshot`,
then sets `isRecording = true`; no other code observes the transient `false`,
so the net state has `isRecording := true`. -/
def HistoryState.undo (now : Nat) (s : HistoryState) : Bool × HistoryState :=
  match s.undoStack.getLast? with
  | none => (false, s)
  | some snapshot =>
      (true, { s with
        redoStack := s.redoStack ++ [{ content := s.content, timestamp := now }]
        undoStack := s.undoStack.dropLast
        content := snapshot.content
        lastSnapshot := snapshot.content
        isRecording := true })

/-- `redo()`: symmetric to `undo()`, with the roles of the stacks swapped. -/
def HistoryState.redo (now : Nat) (s : HistoryState) : Bool × HistoryState :=
  match s.redoStack.getLast? with
  | none => (false, s)
  | some snapshot =>
      (true, { s with
        undoStack := s.undoStack ++ [{ content := s.content, timestamp := now }]
        redoStack := s.redoStack.dropLast
        content := snapshot.content
        lastSnapshot := snapshot.content
        isRecording := true })

/-- `canUndo()`. -/
def HistoryState.canUndo (s : HistoryState) : Bool :=
  !s.undoStack.isEmpty

/-- `canRedo()`. -/
def HistoryState.canRedo (s : HistoryState) : Bool :=
  !s.redoStack.isEmpty

/-- `clear()`. -/
def HistoryState.clear (s : HistoryState) : HistoryState :=
  { s with undoStack := [], redoStack := [], lastSnapshot := s.content }

/-- `pause()`. -/
def HistoryState.pause (s : HistoryState) : HistoryState :=
  { s with isRecording := false }

/-- `resume()`. -/
def HistoryState.resume (s : HistoryState) : HistoryState :=
  { s with isRecording := true }

/-- The history-relevant operations a client can perform on one
`HistoryManager` (the public API of src/unnamed/part_004) plus a raw user
edit of the element's content. -/
inductive HistOp where
  | record (now : Nat)
  | undo (now : Nat)
  | redo (now : Nat)
  | clear
  | pause
  | resume
  | edit (c : String)
deriving Repr, DecidableEq

/-- Run one operation against the history state. -/
def HistOp.apply (op : HistOp) (s : HistoryState) : HistoryState :=
  match op with
  | .record now => HistoryState.recordSnapshot now s
  | .undo now => (HistoryState.undo now s).2
  | .redo now => (HistoryState.redo now s).2
  | .clear => HistoryState.clear s
  | .pause => HistoryState.pause s
  | .resume => HistoryState.resume s
  | .edit c => HistoryState.setDocContent c s

/-- Run a sequence of operations, first one first. -/
def HistOp.run (ops : List HistOp) (s : HistoryState) : HistoryState :=
  ops.foldl (fun t op => op.apply t) s

/-- A user edit of the content to `c`, optionally followed by the debounced
`recordSnapshot` firing at time `t` (whether the pending timer fires before
the next history call depends only on timing). -/
def someEdit (c : String) (fired : Bool) (t : Nat) (s : HistoryState) : HistoryState :=
  if fired then HistoryState.recordSnapshot t (HistoryState.setDocContent c s)
  else HistoryState.setDocContent c s

/-!  Selection Tracker: the document seen by `setCursorAtOffset` is the
sequence of its text nodes in `NodeIterator` (document) order; a collapsed
cursor is a `(node index, offset in node)` pair. -/

/-- Selection-relevant state of one editing surface: its text nodes in
document order, and the current selection (`none` when there is none). -/
structure SelState where
  nodes : List String
  selection : Option (Nat × Nat)
deriving Repr, DecidableEq

/-- Total text length of the document, the sum of its text nodes' lengths. -/
def SelState.textLength (s : SelState) : Nat :=
  (s.nodes.map String.length).sum

/-- The `while ((currentNode = nodeIterator.nextNode()))` walk of
`setCursorAtOffset` (src/src/modules/SelectionManager.ts:239-248): starting
from an accumulated `charCount` and node index `idx`, returns the first node
with `charCount + nodeLength >= offset` together with the in-node offset
`offset - charCount`, and `none` when the iterator is exhausted first. -/
def findTextNode (nodes : List String) (charCount idx offset : Nat) : Option (Nat × Nat) :=
  match nodes with
  | [] => none
  | n :: rest =>
      if offset ≤ charCount + n.length then some (idx, offset - charCount)
      else findTextNode rest (charCount + n.length) (idx + 1) offset

/-- `setCursorAtOffset(offset)`: when the walk finds a node, the selection is
replaced by the collapsed range at that position; when `found` stays false
the selection is left untouched. -/
def SelState.setCursorAtOffset (offset : Nat) (s : SelState) : SelState :=
  match findTextNode s.nodes 0 0 offset with
  | some pos => { s with selection := some pos }
  | none => s

/-!  Editor (src/src/core/Editor.ts): the `input` listener and `destroy()`. -/

/-- The externally visible steps the `input` listener performs, in order. -/
inductive EditorAction where
  | armDebounce (due : Nat)
  | emit (event : String) (payload : String)
deriving Repr, DecidableEq

/-- State of one `Editor` instance: its `HistoryManager` plus the parts
`destroy()` tears down (plugins, toolbar, event-emitter handlers, the
wrapper mounted in the container). -/
structure EditorState where
  history : HistoryState
  handlers : List String
  pluginsActive : Bool
  toolbarActive : Bool
  mounted : Bool
deriving Repr, DecidableEq

/-- `this.historyManager.recordSnapshotDebounced()` as the listener runs it,
appending its observable step to the action log. -/
def recordSnapshotDebouncedLogged (now : Nat) :
    EditorState × List EditorAction → EditorState × List EditorAction
  | (e, log) =>
      ({ e with history := HistoryState.recordSnapshotDebounced now e.history },
       log ++ [EditorAction.armDebounce (now + e.history.snapshotDelay)])

/-- `this.eventEmitter.emit(event, payload)` as the listener runs it,
appending its observable step to the action log. -/
def emitLogged (event payload : String) :
    EditorState × List EditorAction → EditorState × List EditorAction
  | (e, log) => (e, log ++ [EditorAction.emit event payload])

/-- The `input` listener of `Editor.attachEventListeners`
(src/src/core/Editor.ts:201-204): first
`this.historyManager.recordSnapshotDebounced()`, then
`this.eventEmitter.emit('change', { content: this.getContent() })`, both
synchronously in one handler run. -/
def handleInput (now : Nat) (e : EditorState) : EditorState × List EditorAction :=
  let step1 := recordSnapshotDebouncedLogged now (e, [])
  emitLogged "change" step1.1.history.content step1

/-- Index of the first debounce-arming step in an action log. -/
def idxOfArm (log : List EditorAction) : Option Nat :=
  log.findIdx? fun a => match a with
    | .armDebounce _ => true
    | _ => false

/-- Index of the first content-changed emission in an action log. -/
def idxOfChangeEmit (log : List EditorAction) : Option Nat :=
  log.findIdx? fun a => match a with
    | .emit event _ => event == "change"
    | _ => false

/-- `Editor.destroy()` (src/src/core/Editor.ts:265-273): destroys plugins and
toolbar, emits `destroyed`, removes all listeners, and unmounts the wrapper.
It never touches the `HistoryManager`, so `history` is carried over as is. -/
def EditorState.destroy (e : EditorState) : EditorState :=
  { e with pluginsActive := false, toolbarActive := false, handlers := [], mounted := false }

/-- The pending debounce timer firing at its due time: the scheduled callback
runs `this.recordSnapshot()` against whatever document the manager still
holds; when no timer is pending nothing happens. -/
def timerFire (now : Nat) (e : EditorState) : EditorState :=
  match e.history.snapshotTimer with
  | none => e
  | some _ =>
      { e with history :=
          HistoryState.recordSnapshot now { e.history with snapshotTimer := none } }

/-!  Concrete states used to evaluate the model on the spec's scenarios. -/

/-- A fresh `HistoryManager` over an element whose content is `"A"`. -/
def c1Start : HistoryState := HistoryState.init "A" 100

/-- The C1 scenario up to the debounced snapshot firing: `recordSnapshot()`
at content `"A"`, a user edit to `"AB"`, then the debounced
`recordSnapshot()` firing. -/
def c1AfterDebounce : HistoryState :=
  HistoryState.recordSnapshot 600
    (HistoryState.setDocContent "AB" (HistoryState.recordSnapshot 0 c1Start))

/-- A manager already holding a full undo stack (bound 1) with changed
content, about to evict on the next recording. -/
def c2EvictState : HistoryState :=
  { content := "C"
    undoStack := [{ content := "B", timestamp := 1 }]
    redoStack := []
    maxStackSize := 1
    isRecording := true
    lastSnapshot := "B"
    snapshotTimer := none
    snapshotDelay := 500 }

/-- A manager with one recorded snapshot: init at `"A"`, edit to `"B"`,
record. -/
def c3State : HistoryState :=
  HistoryState.recordSnapshot 1 (HistoryState.setDocContent "B" (HistoryState.init "A" 100))

/-- Same one-recorded-snapshot state, for the C4 scenario. -/
def c4Start : HistoryState :=
  HistoryState.recordSnapshot 1 (HistoryState.setDocContent "B" (HistoryState.init "A" 100))

/-- The state right after `undo()` from `c4Start`: the redo stack is
non-empty and the content equals `lastSnapshot`, so the next
`recordSnapshot()` records nothing. -/
def c4NoopState : HistoryState :=
  (HistoryState.undo 2 (HistoryState.recordSnapshot 1
    (HistoryState.setDocContent "B" (HistoryState.init "A" 100)))).2

/-- A one-text-node document (total text length 1) with a collapsed cursor
at its start. -/
def c6Doc : SelState := { nodes := ["A"], selection := some (0, 0) }

/-- A manager with one recorded snapshot whose recording has then been
paused via `pause()`. -/
def c7Paused : HistoryState :=
  HistoryState.pause
    (HistoryState.recordSnapshot 1 (HistoryState.setDocContent "B" (HistoryState.init "A" 100)))

/-- A live editor over content `"A"` with one `change` listener. -/
def c8Editor : EditorState :=
  { history := HistoryState.init "A" 100
    handlers := ["change"]
    pluginsActive := true
    toolbarActive := true
    mounted := true }

/-- A live editor whose user just edited `"A"` to `"AB"`: the debounce timer
is pending (due at 500) and the edit is not yet recorded. -/
def c9Editor : EditorState :=
  { history := { HistoryState.init "A" 100 with content := "AB", snapshotTimer := some 500 }
    handlers := ["change"]
    pluginsActive := true
    toolbarActive := true
    mounted := true }

/-- A manager with one recorded snapshot, for exercising a successful
`undo()`. -/
def c10State : HistoryState :=
  HistoryState.recordSnapshot 1 (HistoryState.setDocContent "B" (HistoryState.init "A" 100))

/-!  Basic characterizations of the `HistoryManager` operations. -/

theorem recordSnapshot_not_recording (now : Nat) (s : HistoryState)
    (h : s.isRecording = false) : HistoryState.recordSnapshot now s = s := by
  unfold HistoryState.recordSnapshot
  rw [if_pos h]

theorem recordSnapshot_content_unchanged (now : Nat) (s : HistoryState)
    (h : s.content = s.lastSnapshot) : HistoryState.recordSnapshot now s = s := by
  unfold HistoryState.recordSnapshot
  by_cases hr : s.isRecording = false
  · rw [if_pos hr]
  · rw [if_neg hr, if_pos h]

theorem recordSnapshot_records (now : Nat) (s : HistoryState)
    (h1 : s.isRecording = true) (h2 : s.content ≠ s.lastSnapshot) :
    HistoryState.recordSnapshot now s =
      if s.maxStackSize < s.undoStack.length + 1 then
        ({ s with undoStack := (s.undoStack ++ [({ content := s.content, timestamp := now } : HistorySnapshot)]).drop 1,
                  lastSnapshot := s.content, redoStack := [] } : HistoryState)
      else
        ({ s with undoStack := s.undoStack ++ [{ content := s.content, timestamp := now }],
                  lastSnapshot := s.content, redoStack := [] } : HistoryState) := by
  unfold HistoryState.recordSnapshot
  rw [if_neg (by simp [h1]), if_neg h2]
  simp

theorem undo_of_nil (now : Nat) (s : HistoryState) (h : s.undoStack = []) :
    HistoryState.undo now s = (false, s) := by
  unfold HistoryState.undo
  rw [h]
  rfl

theorem undo_of_concat (now : Nat) (s : HistoryState) (L : List HistorySnapshot)
    (x : HistorySnapshot) (h : s.undoStack = L ++ [x]) :
    HistoryState.undo now s =
      (true, { s with
        redoStack := s.redoStack ++ [{ content := s.content, timestamp := now }]
        undoStack := L
        content := x.content
        lastSnapshot := x.content
        isRecording := true }) := by
  unfold HistoryState.undo
  rw [h, List.getLast?_concat, List.dropLast_concat]

theorem redo_of_nil (now : Nat) (s : HistoryState) (h : s.redoStack = []) :
    HistoryState.redo now s = (false, s) := by
  unfold HistoryState.redo
  rw [h]
  rfl

theorem redo_of_concat (now : Nat) (s : HistoryState) (L : List HistorySnapshot)
    (x : HistorySnapshot) (h : s.redoStack = L ++ [x]) :
    HistoryState.redo now s =
      (true, { s with
        undoStack := s.undoStack ++ [{ content := s.content, timestamp := now }]
        redoStack := L
        content := x.content
        lastSnapshot := x.content
        isRecording := true }) := by
  unfold HistoryState.redo
  rw [h, List.getLast?_concat, List.dropLast_concat]

/-- A `recordSnapshot` call either leaves the redo stack as it was (the two
early returns) or clears it (a real recording). -/
theorem recordSnapshot_redoStack (now : Nat) (s : HistoryState) :
    (HistoryState.recordSnapshot now s).redoStack = s.redoStack ∨
    (HistoryState.recordSnapshot now s).redoStack = [] := by
  by_cases hr : s.isRecording = false
  · rw [recordSnapshot_not_recording now s hr]
    exact Or.inl rfl
  · by_cases hc : s.content = s.lastSnapshot
    · rw [recordSnapshot_content_unchanged now s hc]
      exact Or.inl rfl
    · rw [recordSnapshot_records now s (by simpa using hr) hc]
      right
      split <;> rfl

/-- Every list is empty or some list with one last element appended. -/
theorem eq_nil_or_append {α : Type} (l : List α) : l = [] ∨ ∃ L x, l = L ++ [x] := by
  rcases List.eq_nil_or_concat l with h | ⟨L, x, h⟩
  · exact Or.inl h
  · exact Or.inr ⟨L, x, by simpa [List.concat_eq_append] using h⟩

/-- Two consecutive `redo()` calls starting from a redo stack with at most
one entry: the second call always returns `false`. -/
theorem double_redo_false (t3 t4 : Nat) (s : HistoryState)
    (h : s.redoStack.length ≤ 1) :
    (HistoryState.redo t4 (HistoryState.redo t3 s).2).1 = false := by
  rcases eq_nil_or_append s.redoStack with hnil | ⟨L, x, hL⟩
  · rw [redo_of_nil t3 s hnil]
    rw [redo_of_nil t4 s hnil]
  · have hlen : L.length = 0 := by
      have := congrArg List.length hL
      simp at this
      omega
    have hLnil : L = [] := List.length_eq_zero.mp hlen
    subst hLnil
    rw [redo_of_concat t3 s [] x hL]
    rw [redo_of_nil t4 _ rfl]

/-- After an `undo()` from a state with empty redo stack, the redo stack has
at most one entry (the saved current content on success, nothing on failure). -/
theorem undo_redoStack_le (t : Nat) (s : HistoryState) (h : s.redoStack = []) :
    ((HistoryState.undo t s).2).redoStack.length ≤ 1 := by
  rcases eq_nil_or_append s.undoStack with hnil | ⟨L, x, hL⟩
  · rw [undo_of_nil t s hnil]
    simp [h]
  · rw [undo_of_concat t s L x hL]
    simp [h]

/-- `someEdit` never grows the redo stack: the raw mutation does not touch it
and the optional recording keeps or clears it. -/
theorem someEdit_redoStack_le (c : String) (fired : Bool) (t : Nat)
    (s : HistoryState) (h : s.redoStack.length ≤ 1) :
    (someEdit c fired t s).redoStack.length ≤ 1 := by
  unfold someEdit
  split
  · rcases recordSnapshot_redoStack t (HistoryState.setDocContent c s) with h1 | h1
    · rw [h1]
      simpa [HistoryState.setDocContent] using h
    · rw [h1]
      simp
  · simpa [HistoryState.setDocContent] using h

/-!  The `undoStack.length + redoStack.length ≤ maxStackSize` invariant. -/

/-- No client operation changes the configured bound. -/
theorem HistOp.apply_maxStackSize (op : HistOp) (s : HistoryState) :
    (op.apply s).maxStackSize = s.maxStackSize := by
  cases op with
  | record now =>
      by_cases hr : s.isRecording = false
      · rw [HistOp.apply, recordSnapshot_not_recording now s hr]
      · by_cases hc : s.content = s.lastSnapshot
        · rw [HistOp.apply, recordSnapshot_content_unchanged now s hc]
        · rw [HistOp.apply, recordSnapshot_records now s (by simpa using hr) hc]
          split <;> rfl
  | undo now =>
      rcases eq_nil_or_append s.undoStack with hnil | ⟨L, x, hL⟩
      · rw [HistOp.apply, undo_of_nil now s hnil]
      · rw [HistOp.apply, undo_of_concat now s L x hL]
  | redo now =>
      rcases eq_nil_or_append s.redoStack with hnil | ⟨L, x, hL⟩
      · rw [HistOp.apply, redo_of_nil now s hnil]
      · rw [HistOp.apply, redo_of_concat now s L x hL]
  | clear => rfl
  | pause => rfl
  | resume => rfl
  | edit c => rfl

/-- One step preserves the combined-size bound. -/
theorem HistOp.apply_invariant (op : HistOp) (s : HistoryState)
    (h : s.undoStack.length + s.redoStack.length ≤ s.maxStackSize) :
    (op.apply s).undoStack.length + (op.apply s).redoStack.length ≤ (op.apply s).maxStackSize := by
  rw [op.apply_maxStackSize s]
  cases op with
  | record now =>
      by_cases hr : s.isRecording = false
      · rw [HistOp.apply, recordSnapshot_not_recording now s hr]
        exact h
      · by_cases hc : s.content = s.lastSnapshot
        · rw [HistOp.apply, recordSnapshot_content_unchanged now s hc]
          exact h
        · rw [HistOp.apply, recordSnapshot_records now s (by simpa using hr) hc]
          split
          · simp
            omega
          · simp
            omega
  | undo now =>
      rcases eq_nil_or_append s.undoStack with hnil | ⟨L, x, hL⟩
      · rw [HistOp.apply, undo_of_nil now s hnil]
        exact h
      · rw [HistOp.apply, undo_of_concat now s L x hL]
        have := congrArg List.length hL
        simp at this ⊢
        omega
  | redo now =>
      rcases eq_nil_or_append s.redoStack with hnil | ⟨L, x, hL⟩
      · rw [HistOp.apply, redo_of_nil now s hnil]
        exact h
      · rw [HistOp.apply, redo_of_concat now s L x hL]
        have := congrArg List.length hL
        simp at this ⊢
        omega
  | clear => simp [HistOp.apply, HistoryState.clear]
  | pause => exact h
  | resume => exact h
  | edit c => exact h

/-- Running any operation sequence preserves the combined-size bound. -/
theorem HistOp.run_invariant (ops : List HistOp) (s : HistoryState)
    (h : s.undoStack.length + s.redoStack.length ≤ s.maxStackSize) :
    (HistOp.run ops s).undoStack.length + (HistOp.run ops s).redoStack.length
      ≤ (HistOp.run ops s).maxStackSize := by
  induction ops generalizing s with
  | nil => exact h
  | cons op rest ih =>
      have hstep : HistOp.run (op :: rest) s = HistOp.run rest (op.apply s) := rfl
      rw [hstep]
      exact ih (op.apply s) (by simpa [op.apply_maxStackSize s] using op.apply_invariant s h)

/-- Running any operation sequence leaves the configured bound unchanged. -/
theorem HistOp.run_maxStackSize (ops : List HistOp) (s : HistoryState) :
    (HistOp.run ops s).maxStackSize = s.maxStackSize := by
  induction ops generalizing s with
  | nil => rfl
  | cons op rest ih =>
      have hstep : HistOp.run (op :: rest) s = HistOp.run rest (op.apply s) := rfl
      rw [hstep, ih (op.apply s), op.apply_maxStackSize s]

/-- The state component of a successful `undo()`. -/
theorem undo_snd_of_concat (now : Nat) (s : HistoryState) (L : List HistorySnapshot)
    (x : HistorySnapshot) (h : s.undoStack = L ++ [x]) :
    (HistoryState.undo now s).2 =
      { s with
        redoStack := s.redoStack ++ [{ content := s.content, timestamp := now }]
        undoStack := L
        content := x.content
        lastSnapshot := x.content
        isRecording := true } := by
  rw [undo_of_concat now s L x h]

/-- The state component of a successful `redo()`. -/
theorem redo_snd_of_concat (now : Nat) (s : HistoryState) (L : List HistorySnapshot)
    (x : HistorySnapshot) (h : s.redoStack = L ++ [x]) :
    (HistoryState.redo now s).2 =
      { s with
        undoStack := s.undoStack ++ [{ content := s.content, timestamp := now }]
        redoStack := L
        content := x.content
        lastSnapshot := x.content
        isRecording := true } := by
  rw [redo_of_concat now s L x h]

/-- The text-node walk finds nothing when the requested offset exceeds the
accumulated count plus all remaining text. -/
theorem findTextNode_none (nodes : List String) (charCount idx offset : Nat)
    (h : charCount + (nodes.map String.length).sum < offset) :
    findTextNode nodes charCount idx offset = none := by
  induction nodes generalizing charCount idx with
  | nil => rfl
  | cons n rest ih =>
      unfold findTextNode
      rw [if_neg (by simp at h; omega)]
      exact ih (charCount + n.length) (idx + 1) (by simp at h ⊢; omega)

/-!  The claims. -/

/-- Claim C1 (evaluation of the code on the spec's scenario): starting from
content `"A"` with empty history, after `recordSnapshot()` (a no-op, since
the constructor set `lastSnapshot` to `"A"`), an edit to `"AB"`, and the
debounced snapshot firing, `undo()` returns `true` but the content stays
`"AB"` — the popped snapshot is the just-recorded `"AB"`, not `"A"` — and
`redo()` then returns `true` with content still `"AB"`.  The claimed
behaviour (content becomes `"A"` after `undo()`) does not hold. -/
theorem c1_scenario_content :
    (HistoryState.undo 700 c1AfterDebounce).1 = true ∧
    (HistoryState.undo 700 c1AfterDebounce).2.content = "AB" ∧
    (HistoryState.undo 700 c1AfterDebounce).2.content ≠ "A" ∧
    (HistoryState.redo 800 (HistoryState.undo 700 c1AfterDebounce).2).1 = true ∧
    (HistoryState.redo 800 (HistoryState.undo 700 c1AfterDebounce).2).2.content = "AB" := by
  refine ⟨rfl, rfl, by decide, rfl, rfl⟩

/-- Claim C2: from a freshly constructed manager, after any sequence of
client operations `undoStack.length ≤ maxStackSize`; and when an actual
recording would push past the bound, the oldest entry (the head of
`undoStack`) is shifted off, retaining only the most recent entries. -/
theorem c2_undo_stack_bounded :
    (∀ (ops : List HistOp) (c0 : String) (maxSize : Nat),
        (HistOp.run ops (HistoryState.init c0 maxSize)).undoStack.length ≤ maxSize) ∧
    (∀ (s : HistoryState) (now : Nat),
        s.isRecording = true → s.content ≠ s.lastSnapshot →
        s.maxStackSize ≤ s.undoStack.length →
        (HistoryState.recordSnapshot now s).undoStack
          = (s.undoStack ++ [({ content := s.content, timestamp := now } : HistorySnapshot)]).drop 1) := by
  constructor
  · intro ops c0 maxSize
    have h := HistOp.run_invariant ops (HistoryState.init c0 maxSize)
      (by simp [HistoryState.init])
    rw [HistOp.run_maxStackSize] at h
    have hm : (HistoryState.init c0 maxSize).maxStackSize = maxSize := rfl
    rw [hm] at h
    omega
  · intro s now h1 h2 h3
    rw [recordSnapshot_records now s h1 h2]
    rw [if_pos (by omega)]

/-- Witness for C2 at concrete inputs: three recordings with bound 2 leave at
most 2 entries, and a recording at a full bound-1 stack evicts the head. -/
theorem c2_undo_stack_bounded_witness :
    (HistOp.run [HistOp.edit "B", HistOp.record 1, HistOp.edit "C", HistOp.record 2,
        HistOp.edit "D", HistOp.record 3] (HistoryState.init "A" 2)).undoStack.length ≤ 2 ∧
    (c2EvictState.isRecording = true ∧ c2EvictState.content ≠ c2EvictState.lastSnapshot ∧
      c2EvictState.maxStackSize ≤ c2EvictState.undoStack.length) ∧
    (HistoryState.recordSnapshot 9 c2EvictState).undoStack
      = (c2EvictState.undoStack
          ++ [({ content := c2EvictState.content, timestamp := 9 } : HistorySnapshot)]).drop 1 :=
  ⟨c2_undo_stack_bounded.1 _ _ _, ⟨by decide, by decide, by decide⟩,
   c2_undo_stack_bounded.2 c2EvictState 9 (by decide) (by decide) (by decide)⟩

/-- Claim C3: from any state with a non-empty undo stack, `undo()` followed
immediately by `redo()` restores the content that was current just before
the `undo()` call (the round-trip law). -/
theorem c3_undo_redo_roundtrip (s : HistoryState) (t1 t2 : Nat)
    (h : s.undoStack ≠ []) :
    ((HistoryState.redo t2 (HistoryState.undo t1 s).2).2).content = s.content := by
  rcases eq_nil_or_append s.undoStack with hnil | ⟨L, x, hL⟩
  · exact absurd hnil h
  · rw [undo_snd_of_concat t1 s L x hL,
        redo_snd_of_concat t2 _ s.redoStack { content := s.content, timestamp := t1 } rfl]

/-- Witness for C3 at a concrete state with one undo entry. -/
theorem c3_undo_redo_roundtrip_witness :
    c3State.undoStack ≠ [] ∧
    ((HistoryState.redo 3 (HistoryState.undo 2 c3State).2).2).content = c3State.content :=
  ⟨by decide, c3_undo_redo_roundtrip c3State 2 3 (by decide)⟩

/-- Claim C4, as amended: a `recordSnapshot()` call that actually records
(recording on and content differing from `lastSnapshot`) leaves `redoStack`
empty, while a call that records nothing leaves the whole state — including
a non-empty `redoStack` — unchanged; and, starting from a state whose
`redoStack` is empty, after `undo(); someEdit(); redo()` a second `redo()`
returns `false` whether or not the edit's debounced recording fired in
between. -/
theorem c4_record_clears_redo :
    (∀ (s : HistoryState) (now : Nat),
        s.isRecording = true → s.content ≠ s.lastSnapshot →
        (HistoryState.recordSnapshot now s).redoStack = []) ∧
    (∀ (s : HistoryState) (now : Nat),
        s.isRecording = false ∨ s.content = s.lastSnapshot →
        HistoryState.recordSnapshot now s = s) ∧
    (∀ (s : HistoryState) (t1 t2 t3 t4 : Nat) (c2 : String) (fired : Bool),
        s.redoStack = [] →
        (HistoryState.redo t4
          (HistoryState.redo t3 (someEdit c2 fired t2 (HistoryState.undo t1 s).2)).2).1 = false) := by
  refine ⟨?_, ?_, ?_⟩
  · intro s now h1 h2
    rw [recordSnapshot_records now s h1 h2]
    split <;> rfl
  · intro s now h
    rcases h with h | h
    · exact recordSnapshot_not_recording now s h
    · exact recordSnapshot_content_unchanged now s h
  · intro s t1 t2 t3 t4 c2 fired h
    exact double_redo_false t3 t4 _
      (someEdit_redoStack_le c2 fired t2 _ (undo_redoStack_le t1 s h))

/-- Counterexample to C4 as stated: right after an `undo()` the content
equals `lastSnapshot`, so `recordSnapshot()` records nothing and returns
with the redo stack still non-empty — not every call leaves it empty. -/
theorem c4_noop_record_keeps_redo :
    HistoryState.recordSnapshot 3 c4NoopState = c4NoopState ∧
    c4NoopState.redoStack ≠ [] := by
  constructor
  · decide
  · decide

/-- Witness for the amended C4 at a concrete state: scenario with the edit's
debounced recording fired. -/
theorem c4_record_clears_redo_witness :
    c4Start.redoStack = [] ∧
    (HistoryState.redo 4
      (HistoryState.redo 3 (someEdit "C" true 2 (HistoryState.undo 1 c4Start).2)).2).1 = false :=
  ⟨by decide, c4_record_clears_redo.2.2 c4Start 1 2 3 4 "C" true (by decide)⟩

/-- Claim C5: recording twice in a row with no intervening content change is
idempotent — the second `recordSnapshot()` call leaves the state (stacks,
`lastSnapshot`, everything) exactly as the first left it. -/
theorem c5_record_idempotent (t1 t2 : Nat) (s : HistoryState) :
    HistoryState.recordSnapshot t2 (HistoryState.recordSnapshot t1 s)
      = HistoryState.recordSnapshot t1 s := by
  by_cases hr : s.isRecording = false
  · rw [recordSnapshot_not_recording t1 s hr, recordSnapshot_not_recording t2 s hr]
  · by_cases hc : s.content = s.lastSnapshot
    · rw [recordSnapshot_content_unchanged t1 s hc, recordSnapshot_content_unchanged t2 s hc]
    · rw [recordSnapshot_records t1 s (by simpa using hr) hc]
      split
      · exact recordSnapshot_content_unchanged t2 _ rfl
      · exact recordSnapshot_content_unchanged t2 _ rfl

/-- Claim C6, as amended: `setCursorAtOffset` with an offset strictly beyond
the document's total text length finds no text node, so it applies no range
and returns with the selection unchanged — a silent no-op, not a clamp to
the document end. -/
theorem c6_out_of_range_noop (s : SelState) (offset : Nat)
    (h : s.textLength < offset) :
    SelState.setCursorAtOffset offset s = s := by
  unfold SelState.setCursorAtOffset
  rw [findTextNode_none s.nodes 0 0 offset (by simpa [SelState.textLength] using h)]

/-- Counterexample to C6 as stated: on a document of text length 1 with the
cursor at offset 0, `setCursorAtOffset 5` leaves the selection at `(0, 0)` —
it is not moved to the document end `(0, 1)`, i.e. the selection IS left
unchanged rather than clamped. -/
theorem c6_no_clamp_counterexample :
    SelState.setCursorAtOffset 5 c6Doc = c6Doc ∧
    (SelState.setCursorAtOffset 5 c6Doc).selection = some (0, 0) ∧
    (SelState.setCursorAtOffset 5 c6Doc).selection ≠ some (0, 1) := by
  refine ⟨by decide, by decide, by decide⟩

/-- Witness for the amended C6 at the concrete document. -/
theorem c6_out_of_range_noop_witness :
    c6Doc.textLength < 5 ∧ SelState.setCursorAtOffset 5 c6Doc = c6Doc :=
  ⟨by decide, c6_out_of_range_noop c6Doc 5 (by decide)⟩

/-- Claim C7, as amended: a successful `undo()` or `redo()` always returns
with `isRecording = true`, regardless of the flag's prior value — the source
sets the flag to `true` unconditionally after applying the snapshot rather
than restoring what it was; a failed call leaves the state untouched.  In
particular an `undo()` performed after `pause()` leaves recording enabled,
not paused. -/
theorem c7_recording_flag :
    (∀ (s : HistoryState) (t : Nat), s.undoStack ≠ [] →
        (HistoryState.undo t s).2.isRecording = true) ∧
    (∀ (s : HistoryState) (t : Nat), s.undoStack = [] →
        (HistoryState.undo t s).2 = s) ∧
    (∀ (s : HistoryState) (t : Nat), s.redoStack ≠ [] →
        (HistoryState.redo t s).2.isRecording = true) ∧
    (∀ (s : HistoryState) (t : Nat), s.redoStack = [] →
        (HistoryState.redo t s).2 = s) := by
  refine ⟨?_, ?_, ?_, ?_⟩
  · intro s t h
    rcases eq_nil_or_append s.undoStack with hnil | ⟨L, x, hL⟩
    · exact absurd hnil h
    · rw [undo_snd_of_concat t s L x hL]
  · intro s t h
    rw [undo_of_nil t s h]
  · intro s t h
    rcases eq_nil_or_append s.redoStack with hnil | ⟨L, x, hL⟩
    · exact absurd hnil h
    · rw [redo_snd_of_concat t s L x hL]
  · intro s t h
    rw [redo_of_nil t s h]

/-- Counterexample to C7 as stated: with recording paused (`isRecording =
false`) and a non-empty undo stack, `undo()` succeeds and returns with
`isRecording = true` — the prior value `false` is not restored. -/
theorem c7_pause_not_restored :
    c7Paused.isRecording = false ∧
    (HistoryState.undo 2 c7Paused).1 = true ∧
    (HistoryState.undo 2 c7Paused).2.isRecording = true := by
  refine ⟨by decide, by decide, by decide⟩

/-- Witness for the amended C7 at a concrete paused state. -/
theorem c7_recording_flag_witness :
    c7Paused.undoStack ≠ [] ∧ (HistoryState.undo 2 c7Paused).2.isRecording = true :=
  ⟨by decide, c7_recording_flag.1 c7Paused 2 (by decide)⟩

/-- Claim C8, as amended: on every raw content-mutation (`input`) event, the
handler synchronously (re)arms the debounce snapshot timer first (log
position 0) and then emits the content-changed notification (log position
1) — the emit follows the arming, not the other way around. -/
theorem c8_arm_before_emit (e : EditorState) (now : Nat) :
    idxOfArm (handleInput now e).2 = some 0 ∧
    idxOfChangeEmit (handleInput now e).2 = some 1 := by
  constructor <;> rfl

/-- Counterexample to C8 as stated: at a concrete editor and time, the
content-changed emission sits at log index 1 and the timer arming at index
0, so there are no indices with the emission strictly before the arming. -/
theorem c8_emit_not_before_arm :
    idxOfChangeEmit (handleInput 0 c8Editor).2 = some 1 ∧
    idxOfArm (handleInput 0 c8Editor).2 = some 0 ∧
    ¬(∃ i j : Nat, idxOfChangeEmit (handleInput 0 c8Editor).2 = some i ∧
        idxOfArm (handleInput 0 c8Editor).2 = some j ∧ i < j) := by
  refine ⟨rfl, rfl, ?_⟩
  rintro ⟨i, j, hi, hj, hij⟩
  rw [show idxOfChangeEmit (handleInput 0 c8Editor).2 = some 1 from rfl] at hi
  rw [show idxOfArm (handleInput 0 c8Editor).2 = some 0 from rfl] at hj
  have hi1 : 1 = i := Option.some.inj hi
  have hj0 : 0 = j := Option.some.inj hj
  omega

/-- Claim C9 (evaluation of the code at the failing input): `destroy()`
leaves the whole `HistoryManager` — including a pending debounce timer —
untouched; on the concrete editor destroyed while a snapshot was pending,
the timer is still pending after `destroy()` and its callback then runs
`recordSnapshot()` against the torn-down document, pushing a snapshot.  The
claimed cancellation does not happen anywhere in `destroy()`. -/
theorem c9_destroy_keeps_timer :
    (∀ e : EditorState, (EditorState.destroy e).history = e.history) ∧
    (EditorState.destroy c9Editor).history.snapshotTimer = some 500 ∧
    (EditorState.destroy c9Editor).mounted = false ∧
    (timerFire 500 (EditorState.destroy c9Editor)).history.undoStack
      = [{ content := "AB", timestamp := 500 }] := by
  refine ⟨fun e => rfl, rfl, rfl, by decide⟩

/-- Claim C10: a successful `undo()` moves exactly one entry from the undo
stack to the redo stack (symmetrically for `redo()`), a failed call returns
`false` and changes nothing, and hence both calls preserve
`undoStack.length + redoStack.length`. -/
theorem c10_stack_transfer (s : HistoryState) (t : Nat) :
    (s.undoStack ≠ [] →
      (HistoryState.undo t s).1 = true ∧
      (HistoryState.undo t s).2.undoStack.length + 1 = s.undoStack.length ∧
      (HistoryState.undo t s).2.redoStack.length = s.redoStack.length + 1) ∧
    (s.undoStack = [] → HistoryState.undo t s = (false, s)) ∧
    (s.redoStack ≠ [] →
      (HistoryState.redo t s).1 = true ∧
      (HistoryState.redo t s).2.redoStack.length + 1 = s.redoStack.length ∧
      (HistoryState.redo t s).2.undoStack.length = s.undoStack.length + 1) ∧
    (s.redoStack = [] → HistoryState.redo t s = (false, s)) ∧
    ((HistoryState.undo t s).2.undoStack.length + (HistoryState.undo t s).2.redoStack.length
      = s.undoStack.length + s.redoStack.length) ∧
    ((HistoryState.redo t s).2.undoStack.length + (HistoryState.redo t s).2.redoStack.length
      = s.undoStack.length + s.redoStack.length) := by
  refine ⟨?_, ?_, ?_, ?_, ?_, ?_⟩
  · intro h
    rcases eq_nil_or_append s.undoStack with hnil | ⟨L, x, hL⟩
    · exact absurd hnil h
    · refine ⟨by rw [undo_of_concat t s L x hL], ?_, ?_⟩
      · rw [undo_snd_of_concat t s L x hL, hL]
        simp
      · rw [undo_snd_of_concat t s L x hL]
        simp
  · intro h
    exact undo_of_nil t s h
  · intro h
    rcases eq_nil_or_append s.redoStack with hnil | ⟨L, x, hL⟩
    · exact absurd hnil h
    · refine ⟨by rw [redo_of_concat t s L x hL], ?_, ?_⟩
      · rw [redo_snd_of_concat t s L x hL, hL]
        simp
      · rw [redo_snd_of_concat t s L x hL]
        simp
  · intro h
    exact redo_of_nil t s h
  · rcases eq_nil_or_append s.undoStack with hnil | ⟨L, x, hL⟩
    · rw [undo_of_nil t s hnil]
    · rw [undo_snd_of_concat t s L x hL, hL]
      simp
      omega
  · rcases eq_nil_or_append s.redoStack with hnil | ⟨L, x, hL⟩
    · rw [redo_of_nil t s hnil]
    · rw [redo_snd_of_concat t s L x hL, hL]
      simp
      omega

/-- Witness for C10 at a concrete state with one undo entry. -/
theorem c10_stack_transfer_witness :
    c10State.undoStack ≠ [] ∧
    (HistoryState.undo 5 c10State).1 = true ∧
    (HistoryState.undo 5 c10State).2.undoStack.length + 1 = c10State.undoStack.length ∧
    (HistoryState.undo 5 c10State).2.redoStack.length = c10State.redoStack.length + 1 :=
  ⟨by decide, (c10_stack_transfer c10State 5).1 (by decide)⟩
